import Mathlib

/-!
Verification development for the mdiss markdown command-record parser.
The definitions below are a shallow embedding of the Python sources
(src/mdiss/parser/main.py, src/mdiss/parser.py,
src/mdiss/parser/handlers/todo_format.py); machine behaviour such as
CPython string methods, regex matching order (greedy and lazy groups,
backtracking) and dict insertion order is modelled explicitly.
-/

namespace Mdiss

/-- ASCII whitespace as matched by the Python str regexes used in the
sources (space, tab, newline, carriage return, vertical tab, form feed).
Exotic unicode whitespace is not modelled. -/
def pyIsSpace (c : Char) : Bool :=
  c = ' ' || c = '\t' || c = '\n' || c = '\r' || c = '\x0b' || c = '\x0c'

/-- Word character for the regex class used in the fence language tag. -/
def isWordChar (c : Char) : Bool :=
  c.isAlpha || c.isDigit || c = '_'

/-- The backtick character (written via its code point). -/
def backtick : Char := Char.ofNat 96

/-- Drop matching characters from the end of a list. -/
def dropEndWhile (p : Char → Bool) (l : List Char) : List Char :=
  (l.reverse.dropWhile p).reverse

/-- Python str.strip with an arbitrary character predicate. -/
def pyStripListP (p : Char → Bool) (l : List Char) : List Char :=
  dropEndWhile p (l.dropWhile p)

/-- Python str.strip() on whitespace. -/
def pyStrip (s : String) : String :=
  String.mk (pyStripListP pyIsSpace s.data)

/-- Python str.rstrip() on whitespace. -/
def pyRstrip (s : String) : String :=
  String.mk (dropEndWhile pyIsSpace s.data)

/-- Python str.strip(c) for a one-character strip set. -/
def pyStripChar (c : Char) (s : String) : String :=
  String.mk (pyStripListP (fun x => x = c) s.data)

/-- Python str.rstrip(c) for a one-character strip set. -/
def pyRstripChar (c : Char) (s : String) : String :=
  String.mk (dropEndWhile (fun x => x = c) s.data)

/-- Python str.lower (ASCII; the sources only lowercase ASCII data). -/
def pyLower (s : String) : String := String.mk (s.data.map Char.toLower)

/-- Split on every non-overlapping occurrence of the separator, left
to right; fuel bounds the steps by the input length. -/
def splitListAux (sep : List Char) : Nat → List Char → List Char → List (List Char)
  | 0, cur, l => [cur.reverse ++ l]
  | fuel + 1, cur, l =>
    if sep.isPrefixOf l then
      cur.reverse :: splitListAux sep fuel [] (l.drop sep.length)
    else
      match l with
      | [] => [cur.reverse]
      | c :: t => splitListAux sep fuel (c :: cur) t

/-- Python content.split(sep) for a non-empty separator: left-to-right
non-overlapping occurrences, empty parts kept. -/
def pySplit (s sep : String) : List String :=
  (splitListAux sep.data (s.data.length + 1) [] s.data).map String.mk

/-- Python sep.join(parts). -/
def pyJoin (sep : String) (parts : List String) : String :=
  String.intercalate sep parts

/-- Substring containment, Python sub in s. -/
def containsSub (l sub : List Char) : Bool :=
  match l with
  | [] => sub.isEmpty
  | _ :: t => sub.isPrefixOf l || containsSub t sub

/-- Python sub in s on strings. -/
def strContains (s sub : String) : Bool := containsSub s.data sub.data

/-- Digits of a nonempty decimal literal, else failure. -/
def digitsToNat : List Char → Option Nat
  | [] => Option.none
  | l => if l.all Char.isDigit then
           some (l.foldl (fun acc c => acc * 10 + (c.toNat - '0'.toNat)) 0)
         else Option.none

/-- Python int(value): surrounding whitespace allowed, optional sign,
then decimal digits. Underscore separators are not modelled. -/
def pyInt (s : String) : Option Int :=
  match (pyStrip s).data with
  | '+' :: ds => (digitsToNat ds).map Int.ofNat
  | '-' :: ds => (digitsToNat ds).map (fun n => -(n : Int))
  | ds => (digitsToNat ds).map Int.ofNat

/-- Value of an unsigned decimal with optional fraction and exponent,
as an exact rational built with one mkRat from the digit string and
the effective power of ten. -/
def decimalCore (l : List Char) : Option Rat :=
  let intPart := l.takeWhile Char.isDigit
  let rest := l.drop intPart.length
  let fracPart :=
    match rest with
    | '.' :: r => r.takeWhile Char.isDigit
    | _ => []
  let rest2 :=
    match rest with
    | '.' :: r => r.drop (r.takeWhile Char.isDigit).length
    | _ => rest
  if intPart.isEmpty && fracPart.isEmpty then Option.none
  else
    let digitsVal : Nat :=
      (intPart ++ fracPart).foldl (fun acc c => acc * 10 + (c.toNat - '0'.toNat)) 0
    let scaled : Int → Rat := fun e =>
      if 0 ≤ e then mkRat (digitsVal * 10 ^ e.toNat) 1
      else mkRat digitsVal (10 ^ (-e).toNat)
    match rest2 with
    | [] => some (scaled (-(fracPart.length : Int)))
    | 'e' :: e | 'E' :: e =>
      let negE :=
        match e with
        | '-' :: _ => true
        | _ => false
      let d :=
        match e with
        | '+' :: d => d
        | '-' :: d => d
        | d => d
      (digitsToNat d).map fun n =>
        scaled ((if negE then -(n : Int) else (n : Int)) - (fracPart.length : Int))
    | _ => Option.none

/-- Python float(value) as an exact rational: surrounding whitespace,
optional sign, decimal mantissa with optional exponent. The special
forms inf and nan (not representable in Rat) and underscore separators
are not modelled; no claim input uses them. -/
def pyFloat (s : String) : Option Rat :=
  match (pyStrip s).data with
  | '+' :: ds => decimalCore ds
  | '-' :: ds => (decimalCore ds).map Neg.neg
  | ds => decimalCore ds

/-- Emoji code-point ranges removed by the status-cleaning regex in
src/mdiss/parser.py and src/mdiss/parser/base_parser.py. -/
def isEmojiChar (c : Char) : Bool :=
  let n := c.toNat
  (decide (0x1F600 ≤ n) && decide (n ≤ 0x1F64F)) ||
  (decide (0x1F300 ≤ n) && decide (n ≤ 0x1F5FF)) ||
  (decide (0x1F680 ≤ n) && decide (n ≤ 0x1F6FF)) ||
  (decide (0x1F1E0 ≤ n) && decide (n ≤ 0x1F1FF)) ||
  (decide (0x2600 ≤ n) && decide (n ≤ 0x26FF)) ||
  (decide (0x2700 ≤ n) && decide (n ≤ 0x27BF))

/-- The normalization table from clean status (its keys still contain
the emoji, so after emoji removal a lookup can never hit; kept verbatim
from the source). -/
def statusMap : List (String × String) :=
  [("❌ Failed", "Failed"), ("✅ Passed", "Passed"),
   ("⚠️ Warning", "Warning"), ("⏱️ Timeout", "Timeout")]

/-- Association-list lookup (Python dict get). -/
def assocGet (m : List (String × String)) (k : String) : Option String :=
  match m with
  | [] => Option.none
  | (k2, v) :: rest => if k2 = k then some v else assocGet rest k

/-- Embeds clean status from src/mdiss/parser.py lines 27 to 56: remove
emoji characters, strip whitespace, then look the result up in the
status map with the raw value as default. -/
def cleanStatus (status : String) : String :=
  if status = "" then ""
  else
    let cleaned := pyStrip (String.mk (status.data.filter (fun c => !(isEmojiChar c))))
    (assocGet statusMap cleaned).getD cleaned

/-! Regex mirrors. Each definition reproduces the behaviour of one
compiled pattern from the sources, including greedy and lazy group
semantics and the matching order of the CPython regex engine, applied
to newline-free lines produced by splitting on newlines. -/

/-- All characters whitespace. -/
def allWs (l : List Char) : Bool := l.all pyIsSpace

/-- Lazy group for the title pattern: the minimal nonempty prefix g
such that the remainder is either empty or whitespace followed by two
asterisks (the optional trailing bold marker). -/
def titleLazyG : List Char → Option (List Char)
  | [] => Option.none
  | c :: t =>
    if c = '\n' then Option.none
    else if t.isEmpty || (t.dropWhile pyIsSpace = ['*', '*']) then some [c]
    else (titleLazyG t).map (fun g => c :: g)

/-- Backtracking over the whitespace run after the ordinal dot in the
title pattern: the engine prefers the maximal run, shrinking only when
nothing is left for the lazy group. -/
def titleAfterDot (m : Nat) (r : List Char) : Option (List Char) :=
  match m with
  | 0 => Option.none
  | k + 1 =>
    match titleLazyG (r.drop (k + 1)) with
    | some g => some g
    | Option.none => titleAfterDot k r

/-- Embeds re.match of the section-title pattern (hash hash,
whitespace, digits, dot, whitespace, lazy title, optional bold marker,
end) shared by src/mdiss/parser/main.py line 76 and
src/mdiss/parser.py line 195; returns the stripped group. -/
def titleMatch (line : String) : Option String :=
  match line.data with
  | '#' :: '#' :: r1 =>
    let w := r1.takeWhile pyIsSpace
    if w.isEmpty then Option.none
    else
      let r2 := r1.drop w.length
      let d := r2.takeWhile Char.isDigit
      if d.isEmpty then Option.none
      else
        match r2.drop d.length with
        | '.' :: r3 =>
          let m := (r3.takeWhile pyIsSpace).length
          (titleAfterDot m r3).map (fun g => pyStrip (String.mk g))
        | _ => Option.none
  | _ => Option.none

/-- Tail acceptance for the main.py section-header pattern: after the
lazy group the line may end with optional whitespace and two
asterisks, with a colon, or with whitespace only. -/
def headerTailOk (t : List Char) : Bool :=
  (let u := t.dropWhile pyIsSpace
   ['*', '*'].isPrefixOf u && allWs (u.drop 2)) ||
  (match t with
   | ':' :: u => allWs u
   | _ => false) ||
  allWs t

/-- Lazy group of the main.py section-header pattern. -/
def headerLazyG : List Char → Option (List Char)
  | [] => Option.none
  | c :: t =>
    if c = '\n' then Option.none
    else if headerTailOk t then some [c]
    else (headerLazyG t).map (fun g => c :: g)

/-- Whitespace backtracking for the main.py header pattern, maximal
run first. -/
def headerAfterHashes (m : Nat) (r : List Char) : Option (List Char) :=
  match m with
  | 0 => Option.none
  | k + 1 =>
    match headerLazyG (r.drop (k + 1)) with
    | some g => some g
    | Option.none => headerAfterHashes k r

/-- Embeds the section header pattern of src/mdiss/parser/main.py line
36 (one to three hashes, whitespace, lazy name, optional bold marker
or colon, trailing whitespace); returns the raw group, which the
caller lowercases without stripping. -/
def sectionHeaderMatch (line : String) : Option String :=
  let l := line.data
  let hashes := l.takeWhile (fun c => c = '#')
  if hashes.length = 0 || 3 < hashes.length then Option.none
  else
    let r := l.drop hashes.length
    let m := (r.takeWhile pyIsSpace).length
    if m = 0 then Option.none
    else (headerAfterHashes m r).map String.mk

/-- Lazy key group of the metadata pattern: minimal nonempty prefix
followed by colon and two asterisks; returns the group and the rest
after that delimiter. -/
def metaKeyG : List Char → Option (List Char × List Char)
  | [] => Option.none
  | c :: t =>
    if c = '\n' then Option.none
    else
      match t with
      | ':' :: '*' :: '*' :: u => some ([c], u)
      | _ => (metaKeyG t).map (fun p => (c :: p.1, p.2))

/-- Value group of the metadata pattern: greedy whitespace then a lazy
group ending before trailing whitespace; equivalently the stripped
value, or the last whitespace character when the value part is all
whitespace, and failure when it is empty. -/
def metaValueG (v : List Char) : Option (List Char) :=
  match v.reverse with
  | [] => Option.none
  | last :: _ =>
    let stripped := pyStripListP pyIsSpace v
    if stripped.isEmpty then some [last] else some stripped

/-- Core of the metadata pattern after the optional bullet: two
asterisks, lazy key, colon and two asterisks, then the value part. -/
def metaCore (r : List Char) : Option (String × String) :=
  match r with
  | '*' :: '*' :: rest =>
    match metaKeyG rest with
    | some (g1, v) => (metaValueG v).map (fun g2 => (String.mk g1, String.mk g2))
    | Option.none => Option.none
  | _ => Option.none

/-- Embeds the metadata pattern shared by src/mdiss/parser/main.py
line 39, src/mdiss/parser.py line 334 and the todo-format handler:
optional whitespace, optional star or dash bullet, whitespace, bold
key, colon, value. Returns the raw key and value groups. -/
def metadataMatch (line : String) : Option (String × String) :=
  let w1 := line.data.dropWhile pyIsSpace
  match w1 with
  | '*' :: r =>
    match metaCore (r.dropWhile pyIsSpace) with
    | some x => some x
    | Option.none => metaCore w1
  | '-' :: r =>
    match metaCore (r.dropWhile pyIsSpace) with
    | some x => some x
    | Option.none => metaCore w1
  | _ => metaCore w1

/-- Tail acceptance for the legacy bold header pattern: optional colon
then trailing whitespace. -/
def legacyColonWs (u : List Char) : Bool :=
  (match u with
   | ':' :: w => allWs w
   | _ => false) ||
  allWs u

/-- Lazy group of the legacy bold header pattern: minimal nonempty
prefix followed by two asterisks, optional colon and whitespace. -/
def legacyBoldG : List Char → Option (List Char)
  | [] => Option.none
  | c :: t =>
    if c = '\n' then Option.none
    else
      match t with
      | '*' :: '*' :: u => if legacyColonWs u then some [c] else (legacyBoldG t).map (c :: ·)
      | _ => (legacyBoldG t).map (c :: ·)

/-- Hash prefix of the legacy header patterns: two hashes with an
optional third. -/
def legacyHashes (l : List Char) : Option (List Char) :=
  match l with
  | '#' :: '#' :: '#' :: r => some r
  | '#' :: '#' :: r => some r
  | _ => Option.none

/-- Embeds the first legacy header alternative of
src/mdiss/parser.py line 289 (hashes, optional whitespace, bold name,
optional colon). -/
def legacyHeaderA (line : String) : Option String :=
  (legacyHashes line.data).bind fun r =>
    match r.dropWhile pyIsSpace with
    | '*' :: '*' :: rest => (legacyBoldG rest).map String.mk
    | _ => Option.none

/-- Greedy group search for the legacy plain header pattern: longest
colon-free prefix first, then shorter ones. -/
def legacyPlainG (r : List Char) : Nat → Option (List Char)
  | 0 => Option.none
  | len + 1 =>
    let t := r.drop (len + 1)
    if legacyColonWs t then some (r.take (len + 1)) else legacyPlainG r len

/-- Whitespace backtracking for the legacy plain header pattern,
trying the maximal run first and shrinking to zero. -/
def legacyPlainAfterWs (r : List Char) : Nat → Option (List Char)
  | 0 =>
    legacyPlainG r (r.takeWhile (fun c => c ≠ ':')).length
  | w + 1 =>
    let rest := r.drop (w + 1)
    match legacyPlainG rest (rest.takeWhile (fun c => c ≠ ':')).length with
    | some g => some g
    | Option.none => legacyPlainAfterWs r w

/-- Embeds the second legacy header alternative of
src/mdiss/parser.py line 290 (hashes, optional whitespace, greedy
colon-free name, optional colon, trailing whitespace). -/
def legacyHeaderB (line : String) : Option String :=
  (legacyHashes line.data).bind fun r =>
    (legacyPlainAfterWs r (r.takeWhile pyIsSpace).length).map String.mk

/-- The legacy section header test: pattern A, else pattern B. -/
def legacyHeaderMatch (line : String) : Option String :=
  match legacyHeaderA line with
  | some g => some g
  | Option.none => legacyHeaderB line

/-! The fenced code block pattern (three backticks, optional word tag,
whitespace containing a newline, lazy body, three backticks) compiled
identically in src/mdiss/parser/main.py line 30 and
src/mdiss/parser.py line 22, scanned with finditer. -/

/-- Lazy body search: split a character list at the first occurrence
of three backticks; fails when there is none. -/
def splitAtTicks : List Char → Option (List Char × List Char)
  | '`' :: '`' :: '`' :: r => some ([], r)
  | c :: t => (splitAtTicks t).map (fun p => (c :: p.1, p.2))
  | [] => Option.none

/-- Attempt to match the code block pattern at the head of the list.
Returns the first physical line of the whole match (used by the
sources to extract the language), the lazy body group, and the
remaining input after the closing backticks. The greedy whitespace
before the mandatory newline makes the body start after the last
newline of the whitespace run; backtracking over that choice can
never produce a different match, since whitespace contains no
backtick. -/
def matchBlockAt (l : List Char) : Option (List Char × List Char × List Char) :=
  match l with
  | '`' :: '`' :: '`' :: r1 =>
    let w := r1.takeWhile isWordChar
    let r2 := r1.drop w.length
    let ws := r2.takeWhile pyIsSpace
    if ws.contains '\n' then
      let beforeNl := ws.takeWhile (fun c => c ≠ '\n')
      let afterLastNl := (ws.reverse.takeWhile (fun c => c ≠ '\n')).reverse
      match splitAtTicks (afterLastNl ++ r2.drop ws.length) with
      | some (b, a) => some ('`' :: '`' :: '`' :: (w ++ beforeNl), b, a)
      | Option.none => Option.none
    else Option.none
  | _ => Option.none

/-- One match datum of the code block scan: newlines before the match
start, first line of the match, body group. -/
structure BlockMatch where
  nlBefore : Nat
  firstLine : List Char
  body : List Char
deriving DecidableEq, Repr

/-- finditer of the code block pattern: try each position left to
right, consume whole matches, and count newlines for the line numbers
used by the legacy parser. Fuel is the input length, which bounds the
number of steps since every step consumes at least one character. -/
def scanBlocksAux : Nat → Nat → List Char → List BlockMatch
  | 0, _, _ => []
  | _, _, [] => []
  | fuel + 1, nl, c :: t =>
    match matchBlockAt (c :: t) with
    | some (fl, b, after) =>
      let consumed := (c :: t).take ((c :: t).length - after.length)
      ⟨nl, fl, b⟩ :: scanBlocksAux fuel (nl + consumed.countP (fun x => x = '\n')) after
    | Option.none =>
      scanBlocksAux fuel (nl + (if c = '\n' then 1 else 0)) t

/-- All code block matches of a document in order. -/
def scanBlocks (s : String) : List BlockMatch :=
  scanBlocksAux (s.data.length + 1) 0 s.data

/-! The shell command pattern (line start, whitespace, dollar,
whitespace, lazy command, optional comment tail or line end) from
src/mdiss/parser.py line 25, scanned with finditer under MULTILINE. -/

/-- Tail of the command pattern after the lazy group: first the
alternative consuming whitespace up to a hash, else the end-of-line
assertion consuming nothing. Returns the consumed characters. -/
def cmdTail (t : List Char) : Option (List Char) :=
  let wsr := t.takeWhile pyIsSpace
  match t.drop wsr.length with
  | '#' :: _ => some (wsr ++ ['#'])
  | _ =>
    match t with
    | [] => some []
    | '\n' :: _ => some []
    | _ => Option.none

/-- Lazy group of the command pattern: minimal nonempty newline-free
prefix whose tail is accepted; returns group and consumed tail. -/
def cmdLazyG : List Char → Option (List Char × List Char)
  | [] => Option.none
  | c :: t =>
    if c = '\n' then Option.none
    else
      match cmdTail t with
      | some tail => some ([c], tail)
      | Option.none => (cmdLazyG t).map (fun p => (c :: p.1, p.2))

/-- Greedy whitespace between the dollar and the lazy group, maximal
run first. -/
def cmdAfterDollar (r2 : List Char) : Nat → Option (List Char × List Char × List Char)
  | 0 =>
    (cmdLazyG r2).map (fun p => ([], p.1, p.2))
  | w + 1 =>
    match cmdLazyG (r2.drop (w + 1)) with
    | some p => some (r2.take (w + 1), p.1, p.2)
    | Option.none => cmdAfterDollar r2 w

/-- Attempt to match the command pattern at a position where the line
start assertion holds. Returns the whole match and the group. -/
def matchCmdAt (l : List Char) : Option (List Char × List Char × List Char) :=
  let ws1 := l.takeWhile pyIsSpace
  match l.drop ws1.length with
  | '$' :: r2 =>
    match cmdAfterDollar r2 (r2.takeWhile pyIsSpace).length with
    | some (w2, g, tail) =>
      let matched := ws1 ++ '$' :: (w2 ++ g ++ tail)
      some (matched, g, l.drop matched.length)
    | Option.none => Option.none
  | _ => Option.none

/-- One match of the command scan: newlines before the match start,
whole match, group. -/
structure CmdMatch where
  nlBefore : Nat
  matched : List Char
  group : List Char
deriving DecidableEq, Repr

/-- finditer of the command pattern, attempting a match only where the
MULTILINE line start assertion holds. -/
def scanCmdsAux : Nat → Bool → Nat → List Char → List CmdMatch
  | 0, _, _, _ => []
  | _, _, _, [] => []
  | fuel + 1, atStart, nl, c :: t =>
    match (if atStart then matchCmdAt (c :: t) else Option.none) with
    | some (matched, g, after) =>
      ⟨nl, matched, g⟩ ::
        scanCmdsAux fuel false (nl + matched.countP (fun x => x = '\n')) after
    | Option.none =>
      scanCmdsAux fuel (c = '\n') (nl + (if c = '\n' then 1 else 0)) t

/-- All command matches of a text in order. -/
def scanCmds (s : String) : List CmdMatch :=
  scanCmdsAux (s.data.length + 1) true 0 s.data

/-! The legacy metadata pattern (bold key without colons, colon, bold
delimiter, whitespace, newline-free value) from src/mdiss/parser.py
line 73, scanned with finditer. -/

/-- Attempt to match the legacy metadata pattern at the head. Returns
key group, value group and the rest after the match. -/
def matchLegacyMetaAt (l : List Char) : Option (List Char × List Char × List Char) :=
  match l with
  | '*' :: '*' :: r1 =>
    let run := r1.takeWhile (fun c => c ≠ ':')
    if run.isEmpty then Option.none
    else
      match r1.drop run.length with
      | ':' :: '*' :: '*' :: r2 =>
        let ws := r2.takeWhile pyIsSpace
        let r3 := r2.drop ws.length
        let v := r3.takeWhile (fun c => c ≠ '\n')
        if v.isEmpty then
          match (ws.reverse.dropWhile (fun c => c = '\n')) with
          | [] => Option.none
          | last :: _ => some (run, [last], r3)
        else some (run, v, r3.drop v.length)
      | _ => Option.none
  | _ => Option.none

/-- finditer of the legacy metadata pattern. -/
def scanLegacyMetaAux : Nat → List Char → List (List Char × List Char)
  | 0, _ => []
  | _, [] => []
  | fuel + 1, c :: t =>
    match matchLegacyMetaAt (c :: t) with
    | some (k, v, after) => (k, v) :: scanLegacyMetaAux fuel after
    | Option.none => scanLegacyMetaAux fuel t

/-- All legacy metadata matches of a text in order. -/
def scanLegacyMeta (s : String) : List (List Char × List Char) :=
  scanLegacyMetaAux (s.data.length + 1) s.data

/-! Embedding of the MarkdownParser in src/mdiss/parser/main.py and
its data models from src/mdiss/parser/models. -/

namespace MP

/-- The ErrorOutput dataclass. -/
structure ErrorOutput where
  content : String
  is_from_code_block : Bool := false
deriving DecidableEq, Repr

/-- The CodeBlock dataclass (line numbers unused by main.py). -/
structure CodeBlock where
  content : String
  language : String := ""
deriving DecidableEq, Repr

/-- The Section dataclass. -/
structure SectionData where
  name : String
  content : String := ""
  code_blocks : List CodeBlock := []
deriving DecidableEq, Repr

/-- The Metadata dataclass: an insertion-ordered string map. -/
structure Metadata where
  data : List (String × String) := []
deriving DecidableEq, Repr

/-- The CommandData dataclass; sections is the insertion-ordered dict
keyed by lowercased section name. -/
structure CommandData where
  title : String
  command : String
  source : String
  command_type : String := "shell"
  status : String := "Failed"
  return_code : Int := 1
  execution_time : Rat := 0
  output : String := ""
  error_output : Option ErrorOutput := Option.none
  metadata : Metadata := {}
  sections : List (String × SectionData) := []
deriving DecidableEq, Repr

/-- Ordered dict assignment: update in place or append. -/
def dictSet (m : List (String × SectionData)) (k : String) (v : SectionData) :
    List (String × SectionData) :=
  match m with
  | [] => [(k, v)]
  | (k2, v2) :: rest => if k2 = k then (k2, v) :: rest else (k2, v2) :: dictSet rest k v

/-- Ordered dict lookup. -/
def dictGet (m : List (String × SectionData)) (k : String) : Option SectionData :=
  match m with
  | [] => Option.none
  | (k2, v) :: rest => if k2 = k then some v else dictGet rest k

/-- Ordered string-map assignment for metadata. -/
def metaSet (m : List (String × String)) (k v : String) : List (String × String) :=
  match m with
  | [] => [(k, v)]
  | (k2, v2) :: rest => if k2 = k then (k2, v) :: rest else (k2, v2) :: metaSet rest k v

/-- Embeds get section or add section followed by in-place mutation of
the returned Section object (models/CommandData lines 59 to 67). -/
def updateSection (cmd : CommandData) (name : String)
    (f : SectionData → SectionData) : CommandData :=
  match dictGet cmd.sections (pyLower name) with
  | some s => { cmd with sections := dictSet cmd.sections (pyLower name) (f s) }
  | Option.none =>
    { cmd with sections := dictSet cmd.sections (pyLower name) (f { name := name }) }

/-- Embeds create command from src/mdiss/parser/main.py lines 117
to 131. -/
def create_command (title file_path : String) : CommandData :=
  { title := title, command := "", source := file_path, command_type := "shell",
    status := "Failed", return_code := 1, execution_time := 0, output := "",
    error_output := Option.none, metadata := {}, sections := [] }

/-- Embeds parse metadata from src/mdiss/parser/main.py lines 208 to
238: match the metadata pattern, then dispatch on the lowercased key,
coercing scalars with safe fallbacks. -/
def parse_metadata (line : String) (cmd : CommandData) : CommandData :=
  match metadataMatch line with
  | Option.none => cmd
  | some (g1, g2) =>
    let key := pyLower (pyStrip g1)
    let value := pyStrip g2
    if key = "command" then { cmd with command := pyStripChar backtick value }
    else if key = "source" then { cmd with source := value }
    else if key = "type" then { cmd with command_type := pyLower value }
    else if key = "status" then { cmd with status := cleanStatus value }
    else if key = "return code" ∨ key = "return_code" then
      match pyInt value with
      | some n => { cmd with return_code := n }
      | Option.none => { cmd with return_code := 1 }
    else if key = "execution time" ∨ key = "execution_time" then
      match pyFloat (pyStrip (pyRstripChar 's' value)) with
      | some x => { cmd with execution_time := x }
      | Option.none => cmd
    else if key = "output" ∨ key = "stdout" then { cmd with output := value }
    else if key = "error" ∨ key = "error_output" ∨ key = "stderr" then
      { cmd with error_output := some { content := value } }
    else { cmd with metadata := ⟨metaSet cmd.metadata.data key value⟩ }

/-- Embeds update command field from src/mdiss/parser/main.py lines
240 to 258. -/
def update_command_field (cmd : CommandData) (field value : String) : CommandData :=
  if field = "command" then { cmd with command := pyStripChar backtick value }
  else if field = "output" then { cmd with output := value }
  else if field = "error_output" then
    match cmd.error_output with
    | some eo => { cmd with error_output := some { eo with content := eo.content ++ "\n" ++ value } }
    | Option.none => { cmd with error_output := some { content := value } }
  else if field = "suggested_solution" then
    { cmd with metadata := ⟨metaSet cmd.metadata.data "suggested_solution" value⟩ }
  else { cmd with metadata := ⟨metaSet cmd.metadata.data field value⟩ }

/-- Embeds finalize section from src/mdiss/parser/main.py lines 260 to
280: flush a pending fence buffer when a new header arrives, appending
to error output but replacing section content. -/
def finalize_section (cmd : CommandData) (section_name : Option String)
    (code_block_content : List String) : CommandData :=
  match section_name with
  | Option.none => cmd
  | some sn =>
    if code_block_content.isEmpty then cmd
    else
      let content := pyStripChar '\n' (pyJoin "\n" code_block_content)
      if content = "" then cmd
      else if sn = "error_output" then
        match cmd.error_output with
        | some eo => { cmd with error_output := some { eo with content := eo.content ++ "\n" ++ content } }
        | Option.none => { cmd with error_output := some { content := content } }
      else updateSection cmd sn (fun s => { s with content := content })

/-- Keyword classification of a lowercased header name
(src/mdiss/parser/main.py lines 180 to 194). -/
def classifySection (section_name : String) : Option String :=
  if strContains section_name "command" then some "command"
  else if strContains section_name "output" && !(strContains section_name "error") then
    some "output"
  else if strContains section_name "error" || strContains section_name "stderr" ||
      strContains section_name "error output" then some "error_output"
  else if strContains section_name "suggested" && strContains section_name "solution" then
    some "suggested_solution"
  else if strContains section_name "metadata" then some "metadata"
  else Option.none

/-- Loop state of process section content: current subsection, fence
flag, fence buffer. -/
structure SectState where
  current_section : Option String := Option.none
  in_code_block : Bool := false
  code_block_content : List String := []
deriving DecidableEq, Repr

/-- One iteration of the line loop in process section content
(src/mdiss/parser/main.py lines 140 to 206). The fence-close commit
replaces error output with the new block (main.py lines 155 to 158)
rather than appending. -/
def process_line (cmd : CommandData) (st : SectState) (raw : String) :
    CommandData × SectState :=
  let line := pyRstrip raw
  if pyStrip line = "```" ∨ pyStrip line = "~~~" then
    if st.in_code_block then
      if !st.code_block_content.isEmpty && st.current_section.isSome then
        let block_content := pyStripChar '\n' (pyJoin "\n" st.code_block_content)
        let cmd :=
          if block_content = "" then cmd
          else
            match st.current_section with
            | some "error_output" =>
              { cmd with error_output := some ⟨block_content, true⟩ }
            | some sn =>
              updateSection cmd sn
                (fun s => { s with code_blocks := s.code_blocks ++ [⟨block_content, ""⟩] })
            | Option.none => cmd
        (cmd, { st with in_code_block := false, code_block_content := [] })
      else (cmd, { st with in_code_block := false })
    else (cmd, { st with in_code_block := true })
  else if st.in_code_block then
    (cmd, { st with code_block_content := st.code_block_content ++ [line] })
  else
    match sectionHeaderMatch line with
    | some g =>
      let cmd := finalize_section cmd st.current_section st.code_block_content
      let section_name := pyLower g
      (cmd, { current_section := classifySection section_name,
              in_code_block := st.in_code_block, code_block_content := [] })
    | Option.none =>
      if pyStrip line = "" || st.current_section.isNone then (cmd, st)
      else
        match st.current_section with
        | some "metadata" => (parse_metadata line cmd, st)
        | some cs => (update_command_field cmd cs line, st)
        | Option.none => (cmd, st)

/-- Embeds process section content from src/mdiss/parser/main.py lines
133 to 206: fold the line loop over the split content. A fence still
open at the end of the section is not flushed (main.py has no
post-loop flush). -/
def process_section_content (content : String) (cmd : CommandData) : CommandData :=
  ((pySplit content "\n").foldl
    (fun p ln => process_line p.1 p.2 ln) (cmd, {})).1

/-- One iteration of the section loop of parse todo format
(src/mdiss/parser/main.py lines 69 to 91): strip, match the title on
the first line, build and populate a command. -/
def todo_section (file_path sec : String) : Option CommandData :=
  let s := pyStrip sec
  if s = "" then Option.none
  else
    match pySplit s "\n" with
    | [] => Option.none
    | l0 :: restL =>
      match titleMatch (pyStrip l0) with
      | Option.none => Option.none
      | some title =>
        let cmd := create_command title file_path
        let section_content := pyStrip (pyJoin "\n" restL)
        some (process_section_content section_content cmd)

/-- Embeds parse todo format from src/mdiss/parser/main.py lines 64 to
93: split on the horizontal rule, parse each section, and keep only
commands whose command string is nonempty (Python truthiness). -/
def parse_todo_format (content file_path : String) : List CommandData :=
  (pySplit content "---").foldl
    (fun acc sec =>
      match todo_section file_path sec with
      | some cmd => if cmd.command ≠ "" then acc ++ [cmd] else acc
      | Option.none => acc)
    []

/-- Per-match record construction of parse code blocks
(src/mdiss/parser/main.py lines 99 to 113): skip empty blocks, set the
command to the stripped body, and override the command type with the
lowercased backtick-stripped first line when nonempty and not bash. -/
def code_block_record (file_path : String) (m : BlockMatch) : Option CommandData :=
  let code_block := pyStrip (String.mk m.body)
  if code_block = "" then Option.none
  else
    let cmd := { create_command "Command from code block" file_path with
                   command := code_block }
    let language := pyLower (pyStripChar backtick (String.mk m.firstLine))
    if language ≠ "" ∧ language ≠ "bash" then
      some { cmd with command_type := language }
    else some cmd

/-- Embeds parse code blocks from src/mdiss/parser/main.py lines 95 to
115: one record per nonempty fenced block, in document order. -/
def parse_code_blocks (content file_path : String) : List CommandData :=
  (scanBlocks content).filterMap (code_block_record file_path)

/-- The mutable attributes of the parser object set by parse
(src/mdiss/parser/base_parser.py lines 15 to 18). -/
structure ParserObj where
  content : String := ""
  file_path : String := ""
deriving DecidableEq, Repr

/-- The initial parser object after construction. -/
def initState : ParserObj := {}

/-- Embeds parse from src/mdiss/parser/main.py lines 43 to 62: store
the arguments on the object, run the todo parser, and fall back to the
code block parser exactly when it returned an empty list. -/
def parse (self : ParserObj) (content : String) (file_path : Option String) :
    ParserObj × List CommandData :=
  let self := { self with content := content, file_path := file_path.getD "" }
  let todo_commands := parse_todo_format self.content self.file_path
  if todo_commands.isEmpty then (self, parse_code_blocks self.content self.file_path)
  else (self, todo_commands)

end MP

/-! Embedding of the TodoFormatHandler metadata line parser from
src/mdiss/parser/handlers/todo_format.py lines 171 to 203. The handler
instantiates the CommandData dataclass with a plain dict for metadata,
so the record is modelled with a string map field. -/

namespace TF

/-- The command record as instantiated by the handler
(todo_format.py lines 75 to 87). -/
structure CommandRec where
  title : String
  command : String := ""
  source : String := ""
  command_type : String := "shell"
  status : String := "Failed"
  return_code : Int := 1
  execution_time : Rat := 0
  output : String := ""
  error_output : Option MP.ErrorOutput := Option.none
  metadata : List (String × String) := []
deriving DecidableEq, Repr

/-- The freshly initialized record of parse section. -/
def initCommand (title : String) : CommandRec := { title := title }

/-- Embeds parse metadata line from todo_format.py lines 171 to 203.
The status branch stores the raw value without normalization
(line 187). -/
def parse_metadata_line (line : String) (cmd : CommandRec) : CommandRec :=
  match metadataMatch line with
  | Option.none => cmd
  | some (g1, g2) =>
    let key := pyLower (pyStrip g1)
    let value := pyStrip g2
    if key = "command" then { cmd with command := pyStripChar backtick value }
    else if key = "source" then { cmd with source := value }
    else if key = "type" then { cmd with command_type := pyLower value }
    else if key = "status" then { cmd with status := value }
    else if key = "return code" ∨ key = "return_code" then
      match pyInt value with
      | some n => { cmd with return_code := n }
      | Option.none => { cmd with return_code := 1 }
    else if key = "execution time" ∨ key = "execution_time" then
      match pyFloat (pyStrip (pyRstripChar 's' value)) with
      | some x => { cmd with execution_time := x }
      | Option.none => cmd
    else if key = "output" ∨ key = "stdout" then { cmd with output := value }
    else if key = "error" ∨ key = "error_output" ∨ key = "stderr" then
      { cmd with error_output := some { content := value } }
    else { cmd with metadata := MP.metaSet cmd.metadata key value }

end TF

/-! Embedding of the legacy MarkdownParser in src/mdiss/parser.py,
which operates on Python dicts with heterogeneous values. -/

namespace Legacy

/-- A Python value as stored in the legacy command dicts. -/
inductive PyVal where
  | s (v : String)
  | i (v : Int)
  | f (v : Rat)
  | dict (v : List (String × PyVal))
  | list (v : List PyVal)
  | null
deriving Repr

/-- A Python dict with string keys and insertion order. -/
abbrev PyDict := List (String × PyVal)

/-- Dict lookup. -/
def dGet (d : PyDict) (k : String) : Option PyVal :=
  match d with
  | [] => Option.none
  | (k2, v) :: rest => if k2 = k then some v else dGet rest k

/-- Dict assignment: update in place or append. -/
def dSet (d : PyDict) (k : String) (v : PyVal) : PyDict :=
  match d with
  | [] => [(k, v)]
  | (k2, v2) :: rest => if k2 = k then (k2, v) :: rest else (k2, v2) :: dSet rest k v

/-- Membership test, Python k in d. -/
def dMem (d : PyDict) (k : String) : Bool := (dGet d k).isSome

/-- String value of a dict entry. Every call site reads an entry that
the parser only ever sets to a string, so the default branch is
unreachable. -/
def asStr (v : Option PyVal) : String :=
  match v with
  | some (.s x) => x
  | _ => ""

/-- Embeds parse metadata from src/mdiss/parser.py lines 58 to 81:
find all bold key-value pairs in a metadata text and keep those with
nonempty stripped key and value. -/
def parse_metadata (metadata_text : String) : List (String × String) :=
  if metadata_text = "" then []
  else
    (scanLegacyMeta metadata_text).foldl
      (fun acc p =>
        let key := pyStrip (String.mk p.1)
        let value := pyStrip (String.mk p.2)
        if key ≠ "" ∧ value ≠ "" then MP.metaSet acc key value else acc)
      []

/-- Embeds update command data from src/mdiss/parser.py lines 83 to
122: dispatch on the lowercased key with safe scalar coercion; a
non-numeric return code falls back to one, an unparsable execution
time leaves the dict unchanged. -/
def update_command_data (cmd_data : PyDict) (key value : String) : PyDict :=
  if value = "" then cmd_data
  else
    let key_lower := pyLower key
    if key_lower = "command" then dSet cmd_data "command" (.s (pyStripChar backtick value))
    else if key_lower = "source" then dSet cmd_data "source" (.s value)
    else if key_lower = "type" then dSet cmd_data "command_type" (.s (pyLower value))
    else if key_lower = "status" then dSet cmd_data "status" (.s (cleanStatus value))
    else if key_lower = "return code" ∨ key_lower = "return_code" then
      match pyInt value with
      | some n => dSet cmd_data "return_code" (.i n)
      | Option.none => dSet cmd_data "return_code" (.i 1)
    else if key_lower = "execution time" ∨ key_lower = "execution_time" then
      match pyFloat (pyStrip (pyRstripChar 's' value)) with
      | some x => dSet cmd_data "execution_time" (.f x)
      | Option.none => cmd_data
    else if key_lower = "output" ∨ key_lower = "stdout" then
      dSet cmd_data "output" (.s value)
    else if key_lower = "error" ∨ key_lower = "error_output" ∨ key_lower = "stderr" then
      dSet cmd_data "error_output" (.s value)
    else if key_lower = "metadata" then
      dSet cmd_data "metadata" (.dict ((parse_metadata value).map (fun p => (p.1, .s p.2))))
    else cmd_data

/-- Keyword classification of the legacy section loop
(src/mdiss/parser.py lines 308 to 321), identical to the main parser
classification. -/
def classifySection (sec : String) : Option String := MP.classifySection sec

/-- Loop state of the legacy process section content. -/
structure SectState where
  current_section : Option String := Option.none
  in_code_block : Bool := false
  code_block_content : List String := []
deriving DecidableEq, Repr

/-- Append a fenced block to the error output entry: because the dict
is initialized with an empty error output string, the membership test
succeeds and the first block is joined onto the empty string, which
produces a leading newline (src/mdiss/parser.py lines 265 to 277). -/
def commitErr (cmd : PyDict) (block_content : String) : PyDict :=
  if dMem cmd "error_output" then
    dSet cmd "error_output"
      (.s (pyRstripChar '\n' (asStr (dGet cmd "error_output")) ++ "\n" ++ block_content))
  else dSet cmd "error_output" (.s block_content)

/-- Embeds finalize section from src/mdiss/parser.py lines 379 to 392:
flush a pending fence buffer on a new header; the error append here
has no rstrip (line 390). -/
def finalize_section (cmd : PyDict) (current_section : Option String)
    (code_block_content : List String) : PyDict :=
  match current_section with
  | Option.none => cmd
  | some cs =>
    if code_block_content.isEmpty then cmd
    else
      let content := pyStripChar '\n' (pyJoin "\n" code_block_content)
      if content = "" then cmd
      else if cs = "error_output" && dMem cmd "error_output" then
        dSet cmd "error_output" (.s (asStr (dGet cmd "error_output") ++ "\n" ++ content))
      else dSet cmd cs (.s content)

/-- One iteration of the legacy section content loop
(src/mdiss/parser.py lines 251 to 377). -/
def process_line (cmd : PyDict) (st : SectState) (raw : String) : PyDict × SectState :=
  let line := pyRstrip raw
  if pyStrip line = "```" ∨ pyStrip line = "~~~" then
    if st.in_code_block then
      if !st.code_block_content.isEmpty && st.current_section.isSome then
        let block_content := pyStripChar '\n' (pyJoin "\n" st.code_block_content)
        let cmd :=
          if block_content = "" then cmd
          else
            match st.current_section with
            | some "error_output" => commitErr cmd block_content
            | some cs => dSet cmd cs (.s block_content)
            | Option.none => cmd
        (cmd, { st with in_code_block := false, code_block_content := [] })
      else (cmd, { st with in_code_block := false })
    else (cmd, { st with in_code_block := true })
  else if st.in_code_block then
    (cmd, { st with code_block_content := st.code_block_content ++ [line] })
  else
    match legacyHeaderMatch line with
    | some g =>
      let cmd := finalize_section cmd st.current_section st.code_block_content
      (cmd, { current_section := classifySection (pyLower g),
              in_code_block := st.in_code_block, code_block_content := [] })
    | Option.none =>
      if pyStrip line = "" || st.current_section.isNone then (cmd, st)
      else
        match st.current_section with
        | some "metadata" =>
          match metadataMatch line with
          | some (g1, g2) =>
            (update_command_data cmd (pyLower (pyStrip g1)) (pyStrip g2), st)
          | Option.none => (cmd, st)
        | some "error_output" =>
          if pyStrip line ≠ "" then
            if !(dMem cmd "error_output") then (dSet cmd "error_output" (.s line), st)
            else if asStr (dGet cmd "error_output") ≠ "" then
              (dSet cmd "error_output"
                (.s (pyRstripChar '\n' (asStr (dGet cmd "error_output")) ++ "\n" ++ line)), st)
            else (dSet cmd "error_output" (.s line), st)
          else (cmd, st)
        | some cs =>
          if !(dMem cmd cs) then (dSet cmd cs (.s line), st)
          else
            (dSet cmd cs (.s (pyRstripChar '\n' (asStr (dGet cmd cs)) ++ "\n" ++ line)), st)
        | Option.none => (cmd, st)

/-- Embeds process section content from src/mdiss/parser.py lines 235
to 377 as a fold of the line loop. -/
def process_section_content (content : String) (cmd : PyDict) : PyDict :=
  ((pySplit content "\n").foldl (fun p ln => process_line p.1 p.2 ln) (cmd, {})).1

/-- The freshly initialized command dict of the legacy todo loop
(src/mdiss/parser.py lines 209 to 221). -/
def init_cmd (title file_path : String) : PyDict :=
  [("title", .s title), ("file", .s file_path), ("command", .s ""),
   ("command_type", .s "shell"), ("status", .s "Failed"), ("return_code", .i 1),
   ("execution_time", .f 0), ("output", .s ""), ("error_output", .s ""),
   ("source", .s file_path), ("metadata", .dict [])]

/-- Embeds finalize command from src/mdiss/parser.py lines 136 to 180.
The closure variables current section and code block content remain at
their initial empty values throughout the enclosing loop (the section
processor uses its own locals), so the pending-buffer branch is dead;
a nonempty dict always has the command key and is appended after
backtick stripping. -/
def finalize_command (commands : List PyDict) (current_cmd : PyDict)
    (closure_section : Option String) (closure_content : List String) :
    List PyDict :=
  if current_cmd.isEmpty then commands
  else
    let current_cmd :=
      if !closure_content.isEmpty && closure_section.isSome then
        let content := pyStripChar '\n' (pyJoin "\n" closure_content)
        if content ≠ "" then
          match closure_section with
          | some "error_output" => commitErr current_cmd content
          | some cs => dSet current_cmd cs (.s content)
          | Option.none => current_cmd
        else current_cmd
      else current_cmd
    if dMem current_cmd "command" then
      commands ++ [dSet current_cmd "command"
        (.s (pyStripChar backtick (asStr (dGet current_cmd "command"))))]
    else commands

/-- Embeds parse todo format from src/mdiss/parser.py lines 124 to
231: split on the rule, finalize the previous command at each valid
section title, initialize and populate a fresh dict, and finalize the
last one. The closure state passed to finalize command is always empty
as explained above. -/
def parse_todo_format (content file_path : String) : List PyDict :=
  let step := fun (p : List PyDict × PyDict) (sec : String) =>
    let s := pyStrip sec
    if s = "" then p
    else
      match pySplit s "\n" with
      | [] => p
      | l0 :: restL =>
        match titleMatch (pyStrip l0) with
        | Option.none => p
        | some title =>
          let commands := finalize_command p.1 p.2 Option.none []
          let current_cmd := init_cmd title file_path
          let section_content := pyStrip (pyJoin "\n" restL)
          (commands, process_section_content section_content current_cmd)
  let out := (pySplit content "---").foldl step ([], [])
  finalize_command out.1 out.2 Option.none []

/-- Embeds extract commands from src/mdiss/parser.py lines 469 to 491:
one dict per command match with a nonempty stripped group. -/
def extract_commands (text : String) : List PyVal :=
  (scanCmds text).filterMap fun m =>
    let command := pyStrip (String.mk m.group)
    if command = "" then Option.none
    else some (.dict
      [("command", .s command), ("line_number", .i (m.nlBefore + 1)),
       ("original_line", .s (pyStrip (String.mk m.matched)))])

/-- Embeds parse content from src/mdiss/parser.py lines 429 to 467:
one dict per nonempty fenced block with line numbers and the commands
extracted from the block. -/
def parse_content (content : String) (file_path : Option String) : List PyDict :=
  (scanBlocks content).filterMap fun m =>
    let code_block := pyStrip (String.mk m.body)
    if code_block = "" then Option.none
    else
      let start_line : Int := m.nlBefore + 1
      let end_line : Int := start_line + (code_block.data.countP (fun c => c = '\n') : Int)
      some [("file", match file_path with | some p => .s p | Option.none => .null),
            ("code_block", .s code_block),
            ("start_line", .i start_line),
            ("end_line", .i end_line),
            ("commands", .list (extract_commands code_block))]

/-- A filesystem entry as observed by parse file: a missing path, a
directory (or other non-regular file), or a regular file whose read
either yields the UTF-8 text or fails with an exception message. -/
inductive FsEntry where
  | missing
  | directory
  | file (read : Except String String)
deriving Repr

/-- The single-element error sentinel of the exception handler in
src/mdiss/parser.py lines 420 to 427. -/
def errorSentinel (file_path msg : String) : PyDict :=
  [("error", .s ("Failed to parse file " ++ file_path ++ ": " ++ msg)),
   ("file", .s file_path), ("commands", .list [])]

/-- Embeds parse file from src/mdiss/parser.py lines 394 to 427:
raise the file-not-found error when the path does not resolve to a
regular file; otherwise read and parse inside a handler that converts
any exception into the error sentinel. The embedded parse functions
are total, so the read is the only fallible step of the protected
block. -/
def parse_file (fs : String → FsEntry) (file_path : String) :
    Except String (List PyDict) :=
  match fs file_path with
  | .missing => .error ("File not found: " ++ file_path)
  | .directory => .error ("File not found: " ++ file_path)
  | .file readResult =>
    match readResult with
    | .error e => .ok [errorSentinel file_path e]
    | .ok content =>
      let todo_commands := parse_todo_format content file_path
      if !todo_commands.isEmpty then .ok todo_commands
      else .ok (parse_content content (some file_path))

end Legacy

/-! Embedding of get statistics from src/mdiss/parser.py lines 651 to
692. The function reads exactly two projections of each record dict:
the exit code entry (default zero) and the command type entry of the
metadata dict (default unknown); records are modelled by those two
optional observations. -/

namespace Stats

/-- One input record as observed by get statistics: the value of
cmd.get with key exit code, and the value of the nested metadata get
with key command type, each absent when the dict has no such entry. -/
structure StatRecord where
  exit_code : Option Int := Option.none
  command_type : Option String := Option.none
deriving DecidableEq, Repr

/-- The returned statistics dict. -/
structure StatsResult where
  total_commands : Nat
  failed_commands : Nat
  success_rate : Rat
  error_codes : List (Int × Nat)
  command_types : List (String × Nat)
deriving DecidableEq, Repr

/-- Python dict counter update: get with default zero, add one, assign
in place. -/
def bump {α : Type} [DecidableEq α] (m : List (α × Nat)) (k : α) : List (α × Nat) :=
  match m with
  | [] => [(k, 1)]
  | (k2, v) :: rest => if k2 = k then (k2, v + 1) :: rest else (k2, v) :: bump rest k

/-- Embeds get statistics: early return for an empty list, then one
pass counting failures and building both histograms, and the success
rate formula. -/
def get_statistics (commands : List StatRecord) : StatsResult :=
  if commands.isEmpty then
    { total_commands := 0, failed_commands := 0, success_rate := 1,
      error_codes := [], command_types := [] }
  else
    let total := commands.length
    let failed := commands.countP (fun cmd => cmd.exit_code.getD 0 ≠ 0)
    let success_rate : Rat :=
      if 0 < total then ((total : Rat) - (failed : Rat)) / (total : Rat) else 1
    let hists := commands.foldl
      (fun (h : List (Int × Nat) × List (String × Nat)) cmd =>
        (bump h.1 (cmd.exit_code.getD 0), bump h.2 (cmd.command_type.getD "unknown")))
      ([], [])
    { total_commands := total, failed_commands := failed,
      success_rate := success_rate, error_codes := hists.1,
      command_types := hists.2 }

end Stats

/-! Concrete documents and auxiliary definitions used by the theorem
statements below. -/

/-- A todo-format section with a command and two fenced error blocks
with bodies a and b. -/
def twoErrorBlocksDoc : String :=
  "## 1. T\n### Command:\nfoo\n### Error Output:\n```\na\n```\n```\nb\n```"

/-- A todo-format section whose command line is backticks around a
single space, so backtick stripping leaves a whitespace-only
command. -/
def whitespaceCommandDoc : String := "## 1. T\n### Command:\n`` ``"

/-- The record produced for the whitespace command document. -/
def whitespaceCommandRec : MP.CommandData :=
  { title := "T", command := " ", source := "" }

/-- Modelled from the claim wording for the fallback handler: one
record per block with the literal title, the block content as command,
and the language tag of the opening fence (the lowercased text after
the backticks) as command type when present and different from bash,
else shell. -/
def fallbackRecordSpec (file_path : String) (m : BlockMatch) : MP.CommandData :=
  let tag := pyLower (pyStripChar backtick (String.mk m.firstLine))
  { title := "Command from code block",
    command := pyStrip (String.mk m.body),
    source := file_path,
    command_type := if tag ≠ "" ∧ tag ≠ "bash" then tag else "shell",
    status := "Failed", return_code := 1, execution_time := 0, output := "",
    error_output := Option.none, metadata := {}, sections := [] }

/-- Total count of a histogram. -/
def histTotal {α : Type} (m : List (α × Nat)) : Nat := (m.map Prod.snd).sum

end Mdiss

namespace Mdiss

/-! Helper lemmas. -/

/-- Bumping a histogram key raises the total count by one. -/
theorem histTotal_bump {α : Type} [DecidableEq α] (m : List (α × Nat)) (k : α) :
    histTotal (Stats.bump m k) = histTotal m + 1 := by
  induction m with
  | nil => simp [Stats.bump, histTotal]
  | cons h t ih =>
    obtain ⟨k2, v⟩ := h
    by_cases hk : k2 = k <;> simp [Stats.bump, hk, histTotal] at ih ⊢ <;> omega

/-- The histogram fold of get statistics adds one tally per record to
each histogram. -/
theorem hist_fold_total (l : List Stats.StatRecord)
    (h : List (Int × Nat) × List (String × Nat)) :
    histTotal (l.foldl
      (fun (h : List (Int × Nat) × List (String × Nat)) cmd =>
        (Stats.bump h.1 (cmd.exit_code.getD 0), Stats.bump h.2 (cmd.command_type.getD "unknown")))
      h).1 = histTotal h.1 + l.length ∧
    histTotal (l.foldl
      (fun (h : List (Int × Nat) × List (String × Nat)) cmd =>
        (Stats.bump h.1 (cmd.exit_code.getD 0), Stats.bump h.2 (cmd.command_type.getD "unknown")))
      h).2 = histTotal h.2 + l.length := by
  induction l generalizing h with
  | nil => simp
  | cons c t ih =>
    rw [List.foldl_cons]
    obtain ⟨ih1, ih2⟩ := ih (Stats.bump h.1 (c.exit_code.getD 0),
      Stats.bump h.2 (c.command_type.getD "unknown"))
    constructor
    · rw [ih1]; simp [histTotal_bump]; omega
    · rw [ih2]; simp [histTotal_bump]; omega

/-- Looking up a key just assigned returns the assigned value. -/
theorem dGet_dSet (d : Legacy.PyDict) (k : String) (v : Legacy.PyVal) :
    Legacy.dGet (Legacy.dSet d k v) k = some v := by
  induction d with
  | nil => simp [Legacy.dSet, Legacy.dGet]
  | cons h t ih =>
    obtain ⟨k2, v2⟩ := h
    by_cases hk : k2 = k <;> simp [Legacy.dSet, Legacy.dGet, hk, ih]

/-- Every record accumulated by the todo-format section fold has a
nonempty command, given that the initial accumulator does. -/
theorem todo_fold_command_ne (file_path : String) (sections : List String)
    (acc : List MP.CommandData) (hacc : ∀ r ∈ acc, r.command ≠ "") :
    ∀ r ∈ sections.foldl
      (fun acc sec =>
        match MP.todo_section file_path sec with
        | some cmd => if cmd.command ≠ "" then acc ++ [cmd] else acc
        | Option.none => acc) acc, r.command ≠ "" := by
  induction sections generalizing acc with
  | nil => simpa using hacc
  | cons s t ih =>
    rw [List.foldl_cons]
    apply ih
    intro x hx
    rcases hts : MP.todo_section file_path s with _ | cmd
    · rw [hts] at hx; exact hacc x hx
    · rw [hts] at hx
      by_cases hc : cmd.command = ""
      · simp only [hc, ne_eq, not_true_eq_false, if_false] at hx
        exact hacc x hx
      · simp only [ne_eq, hc, not_false_eq_true, if_true, List.mem_append,
          List.mem_singleton] at hx
        rcases hx with hx | hx
        · exact hacc x hx
        · subst hx; exact hc

/-- The per-block record of the fallback parser is exactly the record
described by the claim, for blocks with nonempty stripped content. -/
theorem filterMap_code_block (file_path : String) (l : List BlockMatch) :
    l.filterMap (MP.code_block_record file_path) =
      (l.filter (fun m => pyStrip (String.mk m.body) != "")).map
        (fallbackRecordSpec file_path) := by
  induction l with
  | nil => rfl
  | cons m t ih =>
    rw [List.filterMap_cons, List.filter_cons]
    by_cases hb : pyStrip (String.mk m.body) = ""
    · simp only [MP.code_block_record, hb, if_true, bne_self_eq_false, ih]
      simp [hb]
    · have hrec : MP.code_block_record file_path m =
          some (fallbackRecordSpec file_path m) := by
        unfold MP.code_block_record fallbackRecordSpec
        simp only [hb, if_false]
        by_cases hl : pyLower (pyStripChar backtick (String.mk m.firstLine)) ≠ "" ∧
            pyLower (pyStripChar backtick (String.mk m.firstLine)) ≠ "bash"
        · simp [hl, MP.create_command]
        · simp [hl, MP.create_command]
      have hbne : (pyStrip (String.mk m.body) != "") = true := by
        simpa using hb
      rw [hrec, hbne]
      simp only [if_true, List.map_cons, ih]

end Mdiss

namespace Mdiss

/-! Claim theorems. -/

/-- C1 counterexample: in the facade parser of src/mdiss/parser/main.py,
a section with two fenced error blocks with bodies a and b yields a
record whose error output is b, not the newline join a b claimed. -/
theorem c1_error_blocks_counterexample :
    ((MP.parse MP.initState twoErrorBlocksDoc Option.none).2.map
      (fun r => r.error_output.map MP.ErrorOutput.content)) = [some "b"] ∧
    ("b" : String) ≠ "a\nb" := by
  exact ⟨by decide, by decide⟩

/-- C1 amended: committing a fenced error-output block on fence close
sets the error output to exactly that block content (marked as coming
from a code block), overwriting any earlier error content, so the last
block wins. -/
theorem c1_error_blocks_amended (cmd : MP.CommandData) (buf : List String)
    (hb : buf ≠ [])
    (hc : pyStripChar '\n' (pyJoin "\n" buf) ≠ "") :
    (MP.process_line cmd
      { current_section := some "error_output", in_code_block := true,
        code_block_content := buf } "```").1.error_output =
      some { content := pyStripChar '\n' (pyJoin "\n" buf),
             is_from_code_block := true } := by
  have hbe : buf.isEmpty = false := by
    cases buf with
    | nil => exact absurd rfl hb
    | cons x xs => rfl
  simp only [MP.process_line, hbe]
  rw [if_pos (Or.inl (show pyStrip (pyRstrip "```") = "```" from rfl))]
  simp only [hc, Bool.not_false, Option.isSome_some, Bool.and_self, if_true, if_false]

/-- C1 witness for the amended theorem: committing the block b over an
existing error output a yields exactly b. -/
theorem c1_error_blocks_amended_witness :
    (MP.process_line
      { MP.create_command "T" "" with error_output := some { content := "a" } }
      { current_section := some "error_output", in_code_block := true,
        code_block_content := ["b"] } "```").1.error_output =
      some { content := "b", is_from_code_block := true } := by
  have h := c1_error_blocks_amended
    { MP.create_command "T" "" with error_output := some { content := "a" } }
    ["b"] (by decide) (by decide)
  exact h

/-- C2 counterexample: the facade todo parse emits a record whose
command is a single space, which is whitespace only after trimming, so
the record list is not free of whitespace-only commands. -/
theorem c2_whitespace_command_counterexample :
    ((MP.parse MP.initState whitespaceCommandDoc Option.none).2.map
      (fun r => r.command)) = [" "] ∧ pyStrip " " = "" := by
  exact ⟨by decide, by decide⟩

/-- C2 amended: the facade todo parse never emits a record whose
command is exactly empty (a titled section yielding no command text
produces no record), but the guard is plain emptiness, not trimmed
emptiness, so whitespace-only commands can be emitted. -/
theorem c2_no_empty_command (content file_path : String) (r : MP.CommandData)
    (h : r ∈ MP.parse_todo_format content file_path) : r.command ≠ "" := by
  unfold MP.parse_todo_format at h
  exact todo_fold_command_ne file_path (pySplit content "---") [] (by simp) r h

/-- C2 witness: the amended theorem applied to the record of the
whitespace command document. -/
theorem c2_no_empty_command_witness : whitespaceCommandRec.command ≠ "" :=
  c2_no_empty_command whitespaceCommandDoc "" whitespaceCommandRec (by decide)

/-- C3: the facade parse returns the todo-format records exactly when
that list is nonempty, and otherwise returns the code-block fallback
records; the two results are never merged. -/
theorem c3_two_stage_fallback (s : MP.ParserObj) (content : String)
    (file_path : Option String) :
    (MP.parse_todo_format content (file_path.getD "") ≠ [] ∧
      (MP.parse s content file_path).2 = MP.parse_todo_format content (file_path.getD "")) ∨
    (MP.parse_todo_format content (file_path.getD "") = [] ∧
      (MP.parse s content file_path).2 = MP.parse_code_blocks content (file_path.getD "")) := by
  by_cases h : MP.parse_todo_format content (file_path.getD "") = []
  · right
    refine ⟨h, ?_⟩
    simp [MP.parse, h]
  · left
    refine ⟨h, ?_⟩
    have : (MP.parse_todo_format content (file_path.getD "")).isEmpty = false := by
      simpa [List.isEmpty_iff] using h
    simp [MP.parse, this]

/-- C4: parse file signals the distinct file-not-found error exactly
when the path is missing or not a regular file, and converts a failure
of the protected read into the single-element error sentinel instead
of propagating. -/
theorem c4_parse_file_errors (fs : String → Legacy.FsEntry) (file_path : String) :
    ((∃ msg, Legacy.parse_file fs file_path = Except.error msg) ↔
      (fs file_path = Legacy.FsEntry.missing ∨ fs file_path = Legacy.FsEntry.directory)) ∧
    (∀ e, fs file_path = Legacy.FsEntry.file (Except.error e) →
      Legacy.parse_file fs file_path = Except.ok [Legacy.errorSentinel file_path e]) := by
  constructor
  · constructor
    · rintro ⟨msg, h⟩
      cases hfs : fs file_path with
      | missing => exact Or.inl rfl
      | directory => exact Or.inr rfl
      | file readResult =>
        rw [Legacy.parse_file, hfs] at h
        cases readResult with
        | error e => simp at h
        | ok content =>
          by_cases ht : (Legacy.parse_todo_format content file_path).isEmpty <;>
            simp [ht] at h
    · rintro (h | h) <;> exact ⟨_, by rw [Legacy.parse_file, h]⟩
  · intro e he
    rw [Legacy.parse_file, he]

/-- C4 witness: a read failure yields the sentinel, and a missing path
yields the file-not-found error. -/
theorem c4_parse_file_errors_witness :
    Legacy.parse_file (fun _ => Legacy.FsEntry.file (Except.error "boom")) "a.md" =
      Except.ok [Legacy.errorSentinel "a.md" "boom"] ∧
    (∃ msg, Legacy.parse_file (fun _ => Legacy.FsEntry.missing) "b.md" =
      Except.error msg) :=
  ⟨(c4_parse_file_errors (fun _ => Legacy.FsEntry.file (Except.error "boom")) "a.md").2
      "boom" rfl,
   ((c4_parse_file_errors (fun _ => Legacy.FsEntry.missing) "b.md").1).mpr (Or.inl rfl)⟩

/-- C5: the fallback parser turns exactly the nonempty fenced blocks,
in document order, into records with the literal title, the block
content as command, and the language-tag rule for the command type
(tag when present and not bash, else shell). -/
theorem c5_fallback_records (content file_path : String) :
    MP.parse_code_blocks content file_path =
      ((scanBlocks content).filter (fun m => pyStrip (String.mk m.body) != "")).map
        (fallbackRecordSpec file_path) :=
  filterMap_code_block file_path (scanBlocks content)

/-- C6 counterexample: the TodoFormatHandler metadata parser of
src/mdiss/parser/handlers/todo_format.py stores the raw status value,
so the parsed status of a decorated value differs from the normalizer
output. -/
theorem c6_status_counterexample :
    (TF.parse_metadata_line "**Status:** ❌ Failed" (TF.initCommand "T")).status =
      "❌ Failed" ∧
    cleanStatus "❌ Failed" = "Failed" ∧ ("❌ Failed" : String) ≠ "Failed" := by
  exact ⟨by decide, by decide, by decide⟩

/-- C6 amended: the normalizer maps the decorated failed status to
Failed and passes an undecorated custom status through unchanged, and
every status value parsed by the facade metadata parser of
src/mdiss/parser/main.py goes through the normalizer; the standalone
TodoFormatHandler, however, stores the raw value. -/
theorem c6_status_normalization :
    cleanStatus "❌ Failed" = "Failed" ∧ cleanStatus "Custom" = "Custom" ∧
    ∀ (line : String) (cmd : MP.CommandData) (g1 g2 : String),
      metadataMatch line = some (g1, g2) → pyLower (pyStrip g1) = "status" →
      (MP.parse_metadata line cmd).status = cleanStatus (pyStrip g2) := by
  refine ⟨by decide, by decide, ?_⟩
  intro line cmd g1 g2 hm hk
  unfold MP.parse_metadata
  rw [hm]
  simp only [hk]
  rw [if_neg (by decide), if_neg (by decide), if_neg (by decide), if_pos trivial]

/-- C6 witness: the amended theorem applied to a concrete status line. -/
theorem c6_status_normalization_witness :
    (MP.parse_metadata "**Status:** ❌ Failed" (MP.create_command "T" "")).status =
      "Failed" :=
  (c6_status_normalization.2.2 "**Status:** ❌ Failed" (MP.create_command "T" "")
    "Status" "❌ Failed" (by decide) (by decide)).trans (by decide)

/-- C7: the legacy scalar coercion never raises and falls back to the
documented defaults: a non-numeric return code yields one, an
unparsable execution time leaves the dict (and hence the default zero)
unchanged, and a trailing s suffix is stripped before the float
parse. -/
theorem c7_scalar_coercion :
    (∀ d : Legacy.PyDict,
      Legacy.dGet (Legacy.update_command_data d "Return Code" "abc") "return_code" =
        some (.i 1)) ∧
    (∀ d : Legacy.PyDict, Legacy.update_command_data d "Execution Time" "abc" = d) ∧
    (∀ d : Legacy.PyDict, Legacy.dGet d "execution_time" = some (.f 0) →
      Legacy.dGet (Legacy.update_command_data d "Execution Time" "abc")
        "execution_time" = some (.f 0)) ∧
    Legacy.dGet (Legacy.update_command_data (Legacy.init_cmd "T" "f.md")
      "Execution Time" "1.47s") "execution_time" = some (.f (mkRat 147 100)) := by
  refine ⟨?_, ?_, ?_, rfl⟩
  · intro d
    show Legacy.dGet (Legacy.dSet d "return_code" (.i 1)) "return_code" = some (.i 1)
    exact dGet_dSet d "return_code" (.i 1)
  · intro d
    rfl
  · intro d h
    show Legacy.dGet d "execution_time" = some (.f 0)
    exact h

/-- C7 witness: the execution-time clause applied to the freshly
initialized dict, whose execution time is the default zero. -/
theorem c7_scalar_coercion_witness :
    Legacy.dGet (Legacy.update_command_data (Legacy.init_cmd "T" "f.md")
      "Execution Time" "abc") "execution_time" = some (.f 0) :=
  c7_scalar_coercion.2.2.1 (Legacy.init_cmd "T" "f.md") rfl

/-- C8: the statistics aggregator is a pure function of the record
list with the stated success-rate formula: one for the empty list and
the ratio of non-failed records otherwise. -/
theorem c8_success_rate :
    (Stats.get_statistics []).total_commands = 0 ∧
    (Stats.get_statistics []).success_rate = 1 ∧
    ∀ records : List Stats.StatRecord, records ≠ [] →
      (Stats.get_statistics records).total_commands = records.length ∧
      (Stats.get_statistics records).failed_commands =
        records.countP (fun c => c.exit_code.getD 0 ≠ 0) ∧
      (Stats.get_statistics records).success_rate =
        ((records.length : Rat) - (records.countP (fun c => c.exit_code.getD 0 ≠ 0) : Rat)) /
          (records.length : Rat) := by
  refine ⟨rfl, rfl, ?_⟩
  intro records h
  have he : records.isEmpty = false := by simpa [List.isEmpty_iff] using h
  have hl : 0 < records.length := List.length_pos.mpr h
  unfold Stats.get_statistics
  rw [he]
  simp [hl]

/-- C8 witness: the formula applied to a one-record list with a
nonzero exit code gives a success rate of zero. -/
theorem c8_success_rate_witness :
    (Stats.get_statistics [{ exit_code := some 2, command_type := Option.none }]).success_rate = 0 :=
  ((c8_success_rate.2.2 [{ exit_code := some 2, command_type := Option.none }]
    (by decide)).2.2).trans (by norm_num [List.countP, List.countP.go])

/-- C9: parsing is deterministic and retains no state across calls:
the record list of parse does not depend on the incoming parser
object, and parsing the same content again after a parse returns the
same list. -/
theorem c9_parse_deterministic (s1 s2 : MP.ParserObj) (content : String)
    (file_path : Option String) :
    (MP.parse s1 content file_path).2 = (MP.parse s2 content file_path).2 ∧
    (MP.parse (MP.parse s1 content file_path).1 content file_path).2 =
      (MP.parse s1 content file_path).2 :=
  ⟨rfl, rfl⟩

/-- C10: for every record list, both histograms of the statistics
aggregator tally each record exactly once, so their counts sum to the
total, and the failed count is bounded by the total. -/
theorem c10_statistics_invariants (records : List Stats.StatRecord) :
    histTotal (Stats.get_statistics records).error_codes =
      (Stats.get_statistics records).total_commands ∧
    histTotal (Stats.get_statistics records).command_types =
      (Stats.get_statistics records).total_commands ∧
    (Stats.get_statistics records).failed_commands ≤
      (Stats.get_statistics records).total_commands := by
  by_cases h : records.isEmpty = true
  · simp only [Stats.get_statistics, h, if_true]
    exact ⟨rfl, rfl, Nat.le_refl 0⟩
  · have h2 : records.isEmpty = false := by simpa using h
    simp only [Stats.get_statistics, h2, Bool.false_eq_true, if_false]
    obtain ⟨hh1, hh2⟩ := hist_fold_total records ([], [])
    refine ⟨?_, ?_, ?_⟩
    · simpa [histTotal] using hh1
    · simpa [histTotal] using hh2
    · simpa using List.countP_le_length _

end Mdiss
